import Mathlib

/-!
A verification development for the natural-language chess move resolution
pipeline of the 3D-chess repository.

The pipeline under study consists of:
* the notation cleaning chain in `makeAIMove` (game store),
* `extractMoveNotation` (game store),
* the `parse-move` API route: direct/extended coordinate parsing, candidate
  enumeration by speculative apply/undo against the rules engine, the ordered
  SAN matching strategies, piece+destination fallback, castling and bare
  pawn-square handling, and promotion-suffix extraction,
* the orchestration helpers `makeAIMove`, `tryHandleCommonNotations` and
  `tryHandleCaptureNotation` in the game store,
* the `ChessGame` wrapper (`makeMove` / `undoMove`) over the rules engine.

The rules engine itself (chess.js) is an external collaborator; following the
specification it is modelled only at its interface boundary (`RulesOracle`
below), with apply/undo carrying explicit undo information, exactly as the
specification describes the oracle (`applyMove`, `undo`, `legalMovesByOrigin`,
`turn`, `isCheck`).

All string operations mirror the JavaScript semantics of the exact regular
expressions and string methods the source uses (single-match `replace`,
unanchored leftmost `match`, `trim`, `split`, `includes`, `startsWith`,
`endsWith`, `toLowerCase`).
-/

namespace Chess3D

/-- JavaScript whitespace characters (ASCII fragment relevant here): the
characters matched by `\s` and removed by `String.prototype.trim`. -/
def isWS (c : Char) : Bool :=
  c = ' ' || c = '\t' || c = '\n' || c = '\r' || c = '\x0b' || c = '\x0c'

/-- Newline characters that the JavaScript `.` metacharacter does not match. -/
def isNL (c : Char) : Bool :=
  c = '\n' || c = '\r'

/-- `String.prototype.trim` on a character list. -/
def trimL (l : List Char) : List Char :=
  ((l.dropWhile isWS).reverse.dropWhile isWS).reverse

/-- JavaScript `s.trim()`. -/
def jsTrim (s : String) : String :=
  ⟨trimL s.data⟩

/-- `s.replace(/\.$/, "")`: drop one trailing period, if present. -/
def dropLastDot (l : List Char) : List Char :=
  match l.reverse with
  | c :: rest => if c = '.' then rest.reverse else l
  | [] => l

/-- `s.replace(/[!?]+$/, "")`: drop the maximal trailing run of `!`/`?`. -/
def dropTrailingBangs (l : List Char) : List Char :=
  (l.reverse.dropWhile (fun c => c = '!' || c = '?')).reverse

/-- `s.replace(/[+#]$/, "")`: drop one trailing `+` or `#`, if present. -/
def stripCheckL (l : List Char) : List Char :=
  match l.reverse with
  | c :: rest => if c = '+' || c = '#' then rest.reverse else l
  | [] => l

/-- `s.replace(/\s.*$/, "")`: the leftmost match of `\s.*$` is at the first
whitespace character after which no newline occurs (in JavaScript `.` does not
match `\n`/`\r` and `$` without the `m` flag only matches at the very end), and
the match extends to the end of the string; replacing it with the empty string
keeps the prefix before that whitespace character. -/
def cutAtWS : List Char → List Char
  | [] => []
  | c :: cs => if isWS c && cs.all (fun d => !isNL d) then [] else c :: cutAtWS cs

/-- ASCII `toLowerCase` on one character. -/
def lowerC (c : Char) : Char :=
  if 'A' ≤ c && c ≤ 'Z' then Char.ofNat (c.toNat + 32) else c

/-- JavaScript `s.toLowerCase()` (ASCII fragment). -/
def lowerS (s : String) : String :=
  ⟨s.data.map lowerC⟩

/-- Does list `s` start with list `pat`? (JavaScript `startsWith`.) -/
def hasLead : List Char → List Char → Bool
  | _, [] => true
  | [], _ :: _ => false
  | c :: cs, p :: ps => c = p && hasLead cs ps

/-- Does list `s` end with list `pat`? (JavaScript `endsWith`.) -/
def hasTail (s pat : List Char) : Bool :=
  hasLead s.reverse pat.reverse

/-- Does list `s` contain `pat` as a contiguous substring?
(JavaScript `includes`.) -/
def hasSub : List Char → List Char → Bool
  | s, pat =>
    if hasLead s pat then true
    else match s with
      | [] => false
      | _ :: cs => hasSub cs pat

/-- JavaScript `s.includes(sub)`. -/
def containsS (s sub : String) : Bool :=
  hasSub s.data sub.data

/-- JavaScript `s.split(sep)` for a one-character separator. -/
def splitOnChar (sep : Char) : List Char → List (List Char)
  | [] => [[]]
  | c :: cs =>
    let r := splitOnChar sep cs
    if c = sep then [] :: r
    else match r with
      | h :: t => (c :: h) :: t
      | [] => [[c]]

/-- The notation cleaning chain of `makeAIMove`:
`trim`, then `replace(/\.$/, "")`, then `replace(/[!?]+$/, "")`,
then `replace(/\s.*$/, "")`. -/
def normalize (s : String) : String :=
  ⟨cutAtWS (dropTrailingBangs (dropLastDot (trimL s.data)))⟩

/-- The cleaning at the top of `tryHandleCommonNotations`:
`trim`, then `replace(/\.$/, "")`, then `replace(/[!?]+$/, "")`. -/
def cleanCommon (s : String) : String :=
  ⟨dropTrailingBangs (dropLastDot (trimL s.data))⟩

/-- Character class `[a-h]`. -/
def isFileChar (c : Char) : Bool := 'a' ≤ c && c ≤ 'h'

/-- Character class `[1-8]`. -/
def isRankChar (c : Char) : Bool := '1' ≤ c && c ≤ '8'

/-- Character class `[NBRQK]` (case sensitive). -/
def isPieceUC (c : Char) : Bool :=
  c = 'N' || c = 'B' || c = 'R' || c = 'Q' || c = 'K'

/-- Character class `[QRBN]` (case sensitive). -/
def isQRBN (c : Char) : Bool :=
  c = 'Q' || c = 'R' || c = 'B' || c = 'N'

/-- Character class `[a-h]` under the `i` flag: also matches `A`–`H`. -/
def isFileCharCI (c : Char) : Bool :=
  isFileChar c || ('A' ≤ c && c ≤ 'H')

/-- Character class `[QRBN]` under the `i` flag. -/
def isQRBNCI (c : Char) : Bool :=
  isQRBN c || c = 'q' || c = 'r' || c = 'b' || c = 'n'

/-- `cleanMove.match(/^[NBRQK][a-h][1-8]$/)` as a recognizer, returning the
piece letter and destination square on success. -/
def pieceDestOf (s : String) : Option (Char × String) :=
  match s.data with
  | [p, f, r] =>
    if isPieceUC p && isFileChar f && isRankChar r then some (p, ⟨[f, r]⟩)
    else none
  | _ => none

/-- `cleanMove.match(/^([NBRQK])([a-h1-8])([a-h][1-8])$/)` as a recognizer,
returning the disambiguator character (group 2) on success. -/
def disambOf (s : String) : Option Char :=
  match s.data with
  | [p, d, f, r] =>
    if isPieceUC p && (isFileChar d || isRankChar d) && isFileChar f && isRankChar r
    then some d else none
  | _ => none

/-- `cleanMove.match(/^([a-h][1-8])$/)` as a recognizer. -/
def bareSquareOf (s : String) : Option String :=
  match s.data with
  | [f, r] => if isFileChar f && isRankChar r then some ⟨[f, r]⟩ else none
  | _ => none

/-- `cleanMove.match(/^(O-O|O-O-O|0-0|0-0-0)$/i)`: anchored, case
insensitive. -/
def castleFullTest (s : String) : Bool :=
  lowerS s = "o-o" || lowerS s = "o-o-o" || lowerS s = "0-0" || lowerS s = "0-0-0"

/-- `cleanMove.match(/^(O-O|0-0)$/i)`: the kingside test. -/
def castleKingTest (s : String) : Bool :=
  lowerS s = "o-o" || lowerS s = "0-0"

/-- Leftmost match of the unanchored `/([a-h][1-8])([a-h][1-8])/` (the direct
coordinate format, e.g. `e2e4`), returning the two capture groups. -/
def coordSearch : List Char → Option (String × String)
  | a :: b :: c :: d :: rest =>
    if isFileChar a && isRankChar b && isFileChar c && isRankChar d then
      some (⟨[a, b]⟩, ⟨[c, d]⟩)
    else coordSearch (b :: c :: d :: rest)
  | _ => none

/-- Match `[a-h][1-8]-[a-h][1-8]` at the head of the list, returning the two
squares. -/
def sqDashSq : List Char → Option (String × String)
  | a :: b :: dash :: c :: d :: _ =>
    if dash = '-' && isFileChar a && isRankChar b && isFileChar c && isRankChar d then
      some (⟨[a, b]⟩, ⟨[c, d]⟩)
    else none
  | _ => none

/-- Leftmost match of `/([NBRQK]?)([a-h][1-8])-([a-h][1-8])/` (the extended
format, e.g. `Ng8-f6` or `e2-e4`), returning groups 2 and 3. At each start
position the optional piece letter is tried greedily first, then dropped,
mirroring the backtracking of the JavaScript engine. -/
def extSearch : List Char → Option (String × String)
  | [] => none
  | c :: cs =>
    match (if isPieceUC c then sqDashSq cs else none) with
    | some r => some r
    | none =>
      match sqDashSq (c :: cs) with
      | some r => some r
      | none => extSearch cs

/-- Leftmost match of the unanchored `/([a-h][18])=([QRBN])/i` (Case 2 of
`tryHandleCommonNotations`), returning group 1 verbatim and group 2
lower-cased. -/
def promoSquareSearch : List Char → Option (String × String)
  | a :: b :: '=' :: c :: rest =>
    if isFileCharCI a && (b = '1' || b = '8') && isQRBNCI c then
      some (⟨[a, b]⟩, ⟨[lowerC c]⟩)
    else promoSquareSearch (b :: '=' :: c :: rest)
  | _ :: rest => promoSquareSearch rest
  | [] => none

/-- Can the tail after a destination square complete a match of
`/([a-h][1-8])(?:=[QRBN])?[+#]?$/`, i.e. is it one of
`""`, `"+"`, `"#"`, `"=X"`, `"=X+"`, `"=X#"` with `X ∈ [QRBN]`? -/
def tailFits : List Char → Bool
  | [] => true
  | ['+'] => true
  | ['#'] => true
  | ['=', p] => isQRBN p
  | ['=', p, c] => isQRBN p && (c = '+' || c = '#')
  | _ => false

/-- Leftmost match of `/([a-h][1-8])(?:=[QRBN])?[+#]?$/` (Case 3 of
`tryHandleCommonNotations`): the first square occurrence from which the rest
of the string is an optional promotion suffix and an optional check mark,
ending the string. Returns group 1. -/
def destTailSearch : List Char → Option String
  | f :: r :: rest =>
    if isFileChar f && isRankChar r && tailFits rest then some ⟨[f, r]⟩
    else destTailSearch (r :: rest)
  | _ => none

/-- Leftmost match of `/=([QRBN])/i` (promotion extraction inside Case 3),
returning group 1 lower-cased. -/
def promoLetterSearch : List Char → Option String
  | '=' :: c :: rest =>
    if isQRBNCI c then some ⟨[lowerC c]⟩ else promoLetterSearch (c :: rest)
  | _ :: rest => promoLetterSearch rest
  | [] => none

/-- `cleanMove.match(/^([KQRBNP])/)` followed by the `pieceMap` lookup, with
the `"p"` default: the piece type letter Case 3 searches for. -/
def pieceTypeOf (s : String) : String :=
  match s.data with
  | 'K' :: _ => "k"
  | 'Q' :: _ => "q"
  | 'R' :: _ => "r"
  | 'B' :: _ => "b"
  | 'N' :: _ => "n"
  | 'P' :: _ => "p"
  | _ => "p"

/-- Promotion extraction at the end of the route's matching path:
`if (cleanMove.includes("=")) promotion = cleanMove.split("=")[1].charAt(0).toLowerCase()`.
`charAt(0)` of an empty segment yields the empty string. -/
def promoOf (s : String) : Option String :=
  if containsS s "=" then
    match splitOnChar '=' s.data with
    | _ :: seg :: _ =>
      match seg with
      | c :: _ => some ⟨[lowerC c]⟩
      | [] => some ""
    | _ => some ""
  else none

/-! ## Data model -/

/-- A board cell's piece: `{ type, color }` with one-letter codes, as in the
`ChessPiece` type of the game wrapper. -/
structure CPiece where
  ptype : String
  color : String
  deriving DecidableEq, Repr

/-- The slice of `ChessGameState` consumed by the resolution pipeline:
the position snapshot (standing in for the `fen` field), the side to move,
the legal-move map `validMoves : from-square → reachable to-squares`, and the
8×8 `board` matrix (rank 8 first). `Pos` is the opaque position type of the
rules oracle. -/
structure Snap (Pos : Type) where
  pos : Pos
  turn : String
  validMoves : List (String × List String)
  board : List (List (Option CPiece))
  deriving DecidableEq, Repr

/-- Modelled from the spec: the Rules Oracle (chess.js), an external
collaborator specified only at its interface boundary (spec §6):
`applyMove(from, to, promotion?)` either rejects or returns the new position
together with the SAN of the move just made; `legalMovesByOrigin`, `turn` and
`isCheck` are read off the current position. Undo information is carried by
the game wrapper below, matching the spec's `undo()` that restores the prior
position. -/
structure RulesOracle (Pos : Type) where
  step : Pos → String → String → Option String → Option (Pos × String)
  legal : Pos → List (String × List String)
  turnOf : Pos → String
  check : Pos → Bool

/-- One entry of the wrapper's move history: the move made, its SAN, and the
position before the move (the undo information). Most recent entry first. -/
structure HistEntry (Pos : Type) where
  fromSq : String
  toSq : String
  san : String
  prev : Pos
  deriving DecidableEq, Repr

/-- The `ChessGame` wrapper's state: current position plus history. -/
structure Game (Pos : Type) where
  pos : Pos
  hist : List (HistEntry Pos)
  deriving DecidableEq, Repr

/-- `ChessGame.makeMove(from, to, promotion?)`: the promotion option is passed
on only when truthy (`if (promotion) moveOptions.promotion = promotion`), so an
empty string is dropped; on oracle success the move is pushed onto the
history, on rejection the game is unchanged and `success` is false. -/
def gmMakeMove (O : RulesOracle Pos) (g : Game Pos) (f t : String)
    (promo : Option String) : Bool × Game Pos :=
  let pr : Option String :=
    match promo with
    | some p => if p = "" then none else some p
    | none => none
  match O.step g.pos f t pr with
  | some (p2, san) => (true, ⟨p2, ⟨f, t, san, g.pos⟩ :: g.hist⟩)
  | none => (false, g)

/-- `ChessGame.undoMove()`: chess.js `undo()` pops the most recent move and
restores the prior position; with an empty history it returns `null` without
throwing, and the wrapper still reports success with the state unchanged. -/
def gmUndoMove (g : Game Pos) : Bool × Game Pos :=
  match g.hist with
  | [] => (true, g)
  | e :: rest => (true, ⟨e.prev, rest⟩)

/-- A Move Candidate as built by the route's enumeration loop:
`{ from, to, san, piece }`; the `promotion` field of `MoveInfo` is never
assigned during enumeration. -/
structure MoveInfo where
  fromSq : String
  toSq : String
  san : String
  piece : String
  promo : Option String
  deriving DecidableEq, Repr

/-- The route's resolved output `{ from, to, promotion }`. -/
structure ParsedMove where
  fromSq : String
  toSq : String
  promo : Option String
  deriving DecidableEq, Repr

/-- The fixed castling king source square for the side to move
(`turn === "w" ? "e1" : "e8"`), shared verbatim by the route's castling branch
and Case 1 of `tryHandleCommonNotations`. -/
def castleFromSq (turn : String) : String :=
  if turn = "w" then "e1" else "e8"

/-- The fixed castling king destination square for the side to move and
castle side. -/
def castleToSq (turn : String) (isKingside : Bool) : String :=
  if isKingside then (if turn = "w" then "g1" else "g8")
  else (if turn = "w" then "c1" else "c8")

/-- `algebraicToCoords`: file from the character code, rank from
`8 - parseInt(square[1])`, with bounds checks; any out-of-range or malformed
square yields `null`. -/
def algebraicToCoords (sq : String) : Option (Int × Int) :=
  match sq.data with
  | [f, r] =>
    if '0' ≤ r && r ≤ '9' then
      let file : Int := (f.toNat : Int) - 97
      let rank : Int := 8 - ((r.toNat : Int) - 48)
      if file < 0 || file > 7 || rank < 0 || rank > 7 then none
      else some (rank, file)
    else none
  | _ => none

/-- `board[row][col]` lookup on the 8×8 matrix. -/
def boardAt (board : List (List (Option CPiece))) (row col : Nat) : Option CPiece :=
  (((board.get? row).getD []).get? col).getD none

/-- The piece-type string the enumeration loop records for a candidate: the
type of the piece standing on the from-square of the snapshot's board, or `""`
when the square is malformed or empty. -/
def boardPieceType (board : List (List (Option CPiece))) (sq : String) : String :=
  match algebraicToCoords sq with
  | some (row, col) =>
    match boardAt board row.toNat col.toNat with
    | some p => p.ptype
    | none => ""
  | none => ""

/-- Inner enumeration loop over the to-squares of one from-square: try the
move, record a candidate with the SAN read back from the history on success,
then undo the test move (the undo is guarded by `testMove.success`). -/
def enumTos (O : RulesOracle Pos) (board : List (List (Option CPiece)))
    (f : String) : List String → Game Pos → List MoveInfo → List MoveInfo × Game Pos
  | [], g, acc => (acc, g)
  | t :: rest, g, acc =>
    let r := gmMakeMove O g f t none
    let acc1 :=
      if r.1 then
        match r.2.hist with
        | e :: _ => acc ++ [⟨f, t, e.san, boardPieceType board f, none⟩]
        | [] => acc
      else acc
    let g2 := if r.1 then (gmUndoMove r.2).2 else r.2
    enumTos O board f rest g2 acc1

/-- The route's candidate enumeration over `gameState.validMoves`
(`Object.entries(...).forEach`), threading the speculative game. -/
def enumAll (O : RulesOracle Pos) (board : List (List (Option CPiece))) :
    List (String × List String) → Game Pos → List MoveInfo → List MoveInfo × Game Pos
  | [], g, acc => (acc, g)
  | (f, tos) :: rest, g, acc =>
    let r := enumTos O board f tos g acc
    enumAll O board rest r.2 r.1

/-- The per-candidate matching predicate of `allValidMoves.find`:
exact SAN equality, case-insensitive equality, equality after stripping one
trailing `+`/`#` from the SAN, and piece-letter + destination containment for
tokens of shape `^[NBRQK][a-h][1-8]$`. -/
def sanMatches (cleanMove : String) (m : MoveInfo) : Bool :=
  if m.san = cleanMove then true
  else if lowerS m.san = lowerS cleanMove then true
  else if (⟨stripCheckL m.san.data⟩ : String) = cleanMove then true
  else
    match pieceDestOf cleanMove with
    | some (p, dest) => hasLead m.san.data [p] && containsS m.san dest
    | none => false

/-- The tail of the route after SAN matching failed and the
piece+destination block did not return: castling tokens resolve to the fixed
king squares for the side to move without consulting the candidates; a bare
square token resolves when exactly one pawn candidate reaches it; otherwise
the route answers with the `Could not parse move` error. -/
def routeAfterPieceDest (cands : List MoveInfo) (turn : String)
    (cleanMove : String) : Except String ParsedMove :=
  if castleFullTest cleanMove then
    let isKingside := castleKingTest cleanMove
    .ok ⟨castleFromSq turn, castleToSq turn isKingside, none⟩
  else
    match bareSquareOf cleanMove with
    | some dest =>
      match cands.filter (fun m => m.toSq = dest && m.piece = "p") with
      | [m] => .ok ⟨m.fromSq, m.toSq, none⟩
      | _ => .error ("Could not parse move: " ++ cleanMove)
    | none => .error ("Could not parse move: " ++ cleanMove)

/-- The route's matching stage over the enumerated candidates (after the two
coordinate formats failed): `allValidMoves.find` with `sanMatches`, then the
piece+destination fallback with its disambiguation and ambiguous-pick-first
branches, then castling / bare pawn square / error. -/
def routeMatchCands (cands : List MoveInfo) (turn : String)
    (cleanMove : String) : Except String ParsedMove :=
  match cands.find? (fun m => sanMatches cleanMove m) with
  | some m => .ok ⟨m.fromSq, m.toSq, promoOf cleanMove⟩
  | none =>
    match pieceDestOf cleanMove with
    | some (p, dest) =>
      let possibleMoves :=
        cands.filter (fun m => hasLead m.san.data [p] && m.toSq = dest)
      match possibleMoves with
      | [m] => .ok ⟨m.fromSq, m.toSq, m.promo⟩
      | m1 :: _ :: _ =>
        match disambOf cleanMove with
        | some d =>
          let filteredMoves :=
            possibleMoves.filter (fun m =>
              if isFileChar d then hasLead m.fromSq.data [d]
              else hasTail m.fromSq.data [d])
          match filteredMoves with
          | [m] => .ok ⟨m.fromSq, m.toSq, m.promo⟩
          | _ => .ok ⟨m1.fromSq, m1.toSq, m1.promo⟩
        | none => .ok ⟨m1.fromSq, m1.toSq, m1.promo⟩
      | [] => routeAfterPieceDest cands turn cleanMove
    | none => routeAfterPieceDest cands turn cleanMove

/-- The `parse-move` route as a function of the candidate list: trim the
input, try the direct coordinate format, then the extended format, then the
matching stage. The candidate list is passed in so that theorems can quantify
over it; `parseMoveRoute` below instantiates it with the enumeration. -/
def routeResolve (cands : List MoveInfo) (turn : String)
    (moveText : String) : Except String ParsedMove :=
  let cleanMove := jsTrim moveText
  match coordSearch cleanMove.data with
  | some (f, t) => .ok ⟨f, t, none⟩
  | none =>
    match extSearch cleanMove.data with
    | some (f, t) => .ok ⟨f, t, none⟩
    | none => routeMatchCands cands turn cleanMove

/-- The full `POST /api/chess/parse-move` body: a fresh game is built from the
snapshot's position (empty history), candidates are enumerated by speculative
apply/undo, and the matching stages run. The coordinate formats return before
the enumeration in the source; since enumeration observably restores the game,
hoisting it into `routeResolve`'s candidate argument preserves behaviour. -/
def parseMoveRoute (O : RulesOracle Pos) (snap : Snap Pos)
    (moveText : String) : Except String ParsedMove :=
  let cands := (enumAll O snap.board snap.validMoves ⟨snap.pos, []⟩ []).1
  routeResolve cands snap.turn moveText

/-! ## Orchestrator helpers (game store) -/

/-- The `gameState.board.flat().find(...)` used by Cases 2–4 of
`tryHandleCommonNotations`: the first piece on the board with the side to
move's color and the searched type. The source predicate also contains the
vacuous conjunct `from === from`, which is always true and is therefore not
represented; consequently the found piece is unrelated to the entry's
from-square. -/
def findPieceOfType (turn ty : String) : List (Option CPiece) → Option CPiece
  | [] => none
  | some p :: rest =>
    if p.color = turn && p.ptype = ty then some p else findPieceOfType turn ty rest
  | none :: rest => findPieceOfType turn ty rest

/-- Case 2 loop of `tryHandleCommonNotations` (pawn promotion notation): for
each legal-move entry, if a pawn of the side to move exists anywhere on the
board and the entry reaches the promotion square, try the move with the
promotion piece; the first success is committed, failures leave the game
unchanged and the loop continues. No success falls through (to Case 3). -/
def case2Loop (O : RulesOracle Pos) (snap : Snap Pos) (dest promoP : String)
    (g : Game Pos) : List (String × List String) → Option (Game Pos)
  | [] => none
  | (f, tos) :: rest =>
    let piece := findPieceOfType snap.turn "p" snap.board.flatten
    if piece.isSome && tos.contains dest then
      let r := gmMakeMove O g f dest (some promoP)
      if r.1 then some r.2 else case2Loop O snap dest promoP g rest
    else case2Loop O snap dest promoP g rest

/-- Case 3 loop of `tryHandleCommonNotations` (piece-type brute force): for
each legal-move entry, if a piece of the extracted type exists anywhere on the
board and the entry reaches the destination, try the move (with the promotion
letter when the token carries `=[QRBN]` and the found piece is a pawn); first
success wins. -/
def case3Loop (O : RulesOracle Pos) (snap : Snap Pos) (cleanMove : String)
    (pieceType dest : String) (g : Game Pos) :
    List (String × List String) → Option (Game Pos)
  | [] => none
  | (f, tos) :: rest =>
    let piece := findPieceOfType snap.turn pieceType snap.board.flatten
    if piece.isSome && tos.contains dest then
      let promotion : Option String :=
        match promoLetterSearch cleanMove.data, piece with
        | some L, some p => if p.ptype = "p" then some L else none
        | _, _ => none
      let r := gmMakeMove O g f dest promotion
      if r.1 then some r.2 else case3Loop O snap cleanMove pieceType dest g rest
    else case3Loop O snap cleanMove pieceType dest g rest

/-- Case 4 loop of `tryHandleCommonNotations` (en-passant-shaped capture): for
each legal-move entry, if a pawn of the side to move exists and the entry
reaches the capture destination, try the move without promotion; first success
wins. -/
def case4Loop (O : RulesOracle Pos) (snap : Snap Pos) (dest : String)
    (g : Game Pos) : List (String × List String) → Option (Game Pos)
  | [] => none
  | (f, tos) :: rest =>
    let piece := findPieceOfType snap.turn "p" snap.board.flatten
    if piece.isSome && tos.contains dest then
      let r := gmMakeMove O g f dest none
      if r.1 then some r.2 else case4Loop O snap dest g rest
    else case4Loop O snap dest g rest

/-- `tryHandleCommonNotations`: clean the token, then
Case 1 — castling tokens map to the fixed king squares for the side to move
and are attempted directly, returning `false` immediately when the oracle
rejects them;
Case 2 — promotion notation (`[a-h][18]=[QRBN]`, searched case-insensitively);
Case 3 — piece-type brute force towards the trailing destination square;
Case 4 — capture token by a pawn.
Returns whether a move was applied, together with the resulting game. -/
def tryHandleCommonNotns (O : RulesOracle Pos) (moveText : String)
    (snap : Snap Pos) (g : Game Pos) : Bool × Game Pos :=
  let cleanMove := cleanCommon moveText
  if castleFullTest cleanMove then
    let isKingside := castleKingTest cleanMove
    let r := gmMakeMove O g (castleFromSq snap.turn) (castleToSq snap.turn isKingside) none
    if r.1 then (true, r.2) else (false, g)
  else
    let afterCase2 : Option (Game Pos) :=
      match promoSquareSearch cleanMove.data with
      | some (dest, promoP) => case2Loop O snap dest promoP g snap.validMoves
      | none => none
    match afterCase2 with
    | some g1 => (true, g1)
    | none =>
      let pieceType := pieceTypeOf cleanMove
      let afterCase3 : Option (Game Pos) :=
        match destTailSearch cleanMove.data with
        | some dest => case3Loop O snap cleanMove pieceType dest g snap.validMoves
        | none => none
      match afterCase3 with
      | some g1 => (true, g1)
      | none =>
        if containsS cleanMove "x" && pieceType = "p" then
          match splitOnChar 'x' cleanMove.data with
          | [_, p1] =>
            let dest : String := ⟨stripCheckL p1⟩
            match case4Loop O snap dest g snap.validMoves with
            | some g1 => (true, g1)
            | none => (false, g)
          | _ => (false, g)
        else (false, g)

/-- Inner loop of `tryHandleCaptureNotation` over the to-squares of one
legal-move entry: on a destination hit the move is tried; success commits and
returns; otherwise `game.undoMove()` is called — even though the failed
`makeMove` applied nothing — and the loop continues with that game. Returns
the committed game (if any) and the game after the loop. -/
def capTos (O : RulesOracle Pos) (f dest : String) :
    List String → Game Pos → Option (Game Pos) × Game Pos
  | [], g => (none, g)
  | t :: rest, g =>
    if t = dest then
      let r := gmMakeMove O g f t none
      if r.1 then (some r.2, r.2)
      else capTos O f dest rest (gmUndoMove r.2).2
    else capTos O f dest rest g

/-- Outer loop of `tryHandleCaptureNotation` over the legal-move entries. -/
def capAll (O : RulesOracle Pos) (dest : String) :
    List (String × List String) → Game Pos → Option (Game Pos) × Game Pos
  | [], g => (none, g)
  | (f, tos) :: rest, g =>
    match capTos O f dest tos g with
    | (some g1, g2) => (some g1, g2)
    | (none, g2) => capAll O dest rest g2

/-- `tryHandleCaptureNotation`: tokens containing `x` split into exactly two
parts; the second part minus one trailing `+`/`#` is the capture destination;
every legal-move entry reaching it is tried in order. Returns whether a move
was applied, together with the resulting game. -/
def tryHandleCaptureNotn (O : RulesOracle Pos) (moveText : String)
    (snap : Snap Pos) (g : Game Pos) : Bool × Game Pos :=
  if !containsS moveText "x" then (false, g)
  else
    match splitOnChar 'x' moveText.data with
    | [_, p1] =>
      let dest : String := ⟨stripCheckL p1⟩
      match capAll O dest snap.validMoves g with
      | (some g1, _) => (true, g1)
      | (none, g2) => (false, g2)
    | _ => (false, g)

/-! ## `extractMoveNotation` -/

/-- Character class `[KQRBN]` under the `i` flag. -/
def isPieceCI (c : Char) : Bool :=
  isPieceUC c || c = 'k' || c = 'q' || c = 'r' || c = 'b' || c = 'n'

/-- `x` under the `i` flag. -/
def isXCI (c : Char) : Bool := c = 'x' || c = 'X'

/-- `O` under the `i` flag. -/
def isOCI (c : Char) : Bool := c = 'O' || c = 'o'

/-- Greedy optional single-character element with backtracking: consume a
matching character and try the continuation, falling back to the continuation
on the unconsumed input — the JavaScript engine's treatment of `c?`. The
result is the list of matched characters. -/
def optTry (test : Char → Bool) (l : List Char)
    (k : List Char → Option (List Char)) : Option (List Char) :=
  match l with
  | c :: cs =>
    if test c then
      match k cs with
      | some m => some (c :: m)
      | none => k l
    else k l
  | [] => k l

/-- The mandatory tail of the first alternative of the `extractMoveNotation`
pattern: `[a-h][1-8](?:=[QRBN])?[+#]?` under the `i` flag, with the optional
suffixes taken greedily. -/
def alt1Tail : List Char → Option (List Char)
  | f :: r :: rest =>
    if isFileCharCI f && isRankChar r then
      let (ext1, rest1) :=
        match rest with
        | '=' :: p :: rr =>
          if isQRBNCI p then (['=', p], rr) else ([], rest)
        | _ => ([], rest)
      let ext2 :=
        match rest1 with
        | c :: _ => if c = '+' || c = '#' then [c] else []
        | [] => []
      some ([f, r] ++ ext1 ++ ext2)
    else none
  | _ => none

/-- The first alternative
`[KQRBN]?[a-h]?[1-8]?x?[a-h][1-8](?:=[QRBN])?[+#]?` (case-insensitive)
matched at the head of the list, with the engine's greedy-then-backtrack
order on the four optional one-character elements. -/
def alt1At (l : List Char) : Option (List Char) :=
  optTry isPieceCI l (fun l1 =>
    optTry isFileCharCI l1 (fun l2 =>
      optTry isRankChar l2 (fun l3 =>
        optTry isXCI l3 alt1Tail)))

/-- The castling alternative `O-O(?:-O)?` (case-insensitive) at the head. -/
def altOOAt : List Char → Option (List Char)
  | a :: '-' :: b :: rest =>
    if isOCI a && isOCI b then
      match rest with
      | '-' :: c :: _ =>
        if isOCI c then some [a, '-', b, '-', c] else some [a, '-', b]
      | _ => some [a, '-', b]
    else none
  | _ => none

/-- The castling alternative `0-0(?:-0)?` at the head. -/
def altZeroAt : List Char → Option (List Char)
  | '0' :: '-' :: '0' :: rest =>
    (match rest with
     | '-' :: '0' :: _ => some ['0', '-', '0', '-', '0']
     | _ => some ['0', '-', '0'])
  | _ => none

/-- Leftmost match of the full `extractMoveNotation` pattern
`/([KQRBN]?[a-h]?[1-8]?x?[a-h][1-8](?:=[QRBN])?[+#]?|O-O(?:-O)?|0-0(?:-0)?)/i`,
returning the matched substring (capture group 1 is the whole alternation). -/
def movePatternSearch : List Char → Option (List Char)
  | [] => none
  | c :: cs =>
    match alt1At (c :: cs) with
    | some m => some m
    | none =>
      match altOOAt (c :: cs) with
      | some m => some m
      | none =>
        match altZeroAt (c :: cs) with
        | some m => some m
        | none => movePatternSearch cs

/-- `text.trim().split(/\s+/)[0]`: the first whitespace-delimited word. -/
def firstWord (s : String) : String :=
  ⟨(trimL s.data).takeWhile (fun c => !isWS c)⟩

/-- `extractMoveNotation`: the first standard-algebraic or castling substring
of the reply, or, failing that, its first whitespace-delimited word. -/
def extractMoveNotn (text : String) : String :=
  match movePatternSearch text.data with
  | some m => ⟨m⟩
  | none => firstWord text

/-! ## `makeAIMove` -/

/-- The observable outcome of a `makeAIMove` run: the final game, whether a
move was applied (`isPlayerTurn` handed back with no error), how many
regenerated suggestions were consumed from the LLM collaborator, whether the
run ended in the terminal collaborator-failure error handler, and whether the
modelling fuel ran out with the retry chain still going. -/
structure AIRes (Pos : Type) where
  g : Game Pos
  applied : Bool
  regens : Nat
  failed : Bool
  pending : Bool
  deriving DecidableEq, Repr

/-- `makeAIMove`: try `tryHandleCommonNotations` on the raw token; otherwise
clean the token and parse it through the route, applying the parsed move; on
any failure try `tryHandleCaptureNotation` on the raw token; if that also
fails, request a fresh suggestion from the LLM collaborator (`llm k`; `none`
models the collaborator throwing, which is the only terminal failure) and
restart the pipeline on `extractMoveNotation` of the reply. The source has no
attempt counter — the recursion is bounded here only by the modelling `fuel`,
and the original `gameState` snapshot is reused on every restart. -/
def makeAIMove (O : RulesOracle Pos) (llm : Nat → Option String)
    (snap : Snap Pos) : Nat → Nat → String → Game Pos → AIRes Pos
  | 0, _, _, g => ⟨g, false, 0, false, true⟩
  | fuel + 1, k, moveText, g =>
    let r1 := tryHandleCommonNotns O moveText snap g
    if r1.1 then ⟨r1.2, true, 0, false, false⟩
    else
      let cleanedMove := normalize moveText
      let afterParse : Option (Game Pos) :=
        match parseMoveRoute O snap cleanedMove with
        | .ok pm =>
          let r2 := gmMakeMove O r1.2 pm.fromSq pm.toSq pm.promo
          if r2.1 then some r2.2 else none
        | .error _ => none
      match afterParse with
      | some g2 => ⟨g2, true, 0, false, false⟩
      | none =>
        let rc := tryHandleCaptureNotn O moveText snap r1.2
        if rc.1 then ⟨rc.2, true, 0, false, false⟩
        else
          match llm k with
          | none => ⟨rc.2, false, 0, true, false⟩
          | some text =>
            let next := makeAIMove O llm snap fuel (k + 1) (extractMoveNotn text) rc.2
            ⟨next.g, next.applied, next.regens + 1, next.failed, next.pending⟩

/-- The promotion-defaulting guard at the top of the store's `makeMove`
action: `if (gameState && isPawnPromotionMove(from, to, gameState) &&
!promotion) promotion = "q"` — the promotion actually handed to
`game.makeMove`. An empty string is falsy in the guard. -/
def isPawnPromotionMove (f t : String) (snap : Snap Pos) : Bool :=
  match algebraicToCoords f with
  | none => false
  | some (row, col) =>
    match boardAt snap.board row.toNat col.toNat with
    | none => false
    | some p =>
      if p.ptype ≠ "p" then false
      else
        match algebraicToCoords t with
        | none => false
        | some (trow, _) =>
          (p.color = "w" && trow = 0) || (p.color = "b" && trow = 7)

/-- The promotion value the store's `makeMove` passes to the game wrapper. -/
def storePromotion (snapOpt : Option (Snap Pos)) (f t : String)
    (promo : Option String) : Option String :=
  let falsy := promo = none || promo = some ""
  match snapOpt with
  | some snap => if isPawnPromotionMove f t snap && falsy then some "q" else promo
  | none => promo

/-! ## Concrete oracle instances used by witnesses and counterexamples -/

/-- An oracle that rejects every `applyMove`; its legal-move map is empty.
This instantiates the interface at a position with nothing to play — or,
when paired with a stale `validMoves` snapshot, a position whose map entries
can no longer be applied (exactly what happens to a promotion move applied
without a promotion piece, the oracle rejection the spec documents). -/
def oReject : RulesOracle Nat :=
  ⟨fun _ _ _ _ => none, fun _ => [], fun _ => "w", fun _ => false⟩

/-- An oracle accepting exactly e2–e4 (SAN `e4`) at position 0. -/
def oE4 : RulesOracle Nat :=
  ⟨fun p f t pr =>
     if p = 0 && f = "e2" && t = "e4" && pr = none then some (1, "e4") else none,
   fun p => if p = 0 then [("e2", ["e4"])] else [],
   fun p => if p = 0 then "w" else "b",
   fun _ => false⟩

/-- An oracle accepting exactly the white kingside castle e1–g1 (SAN `O-O`)
at position 0. -/
def oCastle : RulesOracle Nat :=
  ⟨fun p f t pr =>
     if p = 0 && f = "e1" && t = "g1" && pr = none then some (1, "O-O") else none,
   fun p => if p = 0 then [("e1", ["g1"])] else [],
   fun _ => "w",
   fun _ => false⟩

/-- Snapshot for the capture-fallback counterexample: white to move, the
legal-move map lists the promotion capture g7→h8, position 2. -/
def snapCap : Snap Nat := ⟨2, "w", [("g7", ["h8"])], []⟩

/-- Game for the capture-fallback counterexample: position 2 with one prior
real move (e7–e5 from position 1) in the history. -/
def gCap : Game Nat := ⟨2, [⟨"e7", "e5", "e5", 1⟩]⟩

/-- An empty snapshot over `oReject` at position 0. -/
def snapEmpty : Snap Nat := ⟨0, "w", [], []⟩

/-- An empty board row. -/
def rowEmpty : List (Option CPiece) := List.replicate 8 none

/-- A board with a single white pawn on e7 (row 1, column 4 of the rank-8
first matrix). -/
def boardPawnE7 : List (List (Option CPiece)) :=
  [rowEmpty,
   [none, none, none, none, some ⟨"p", "w"⟩, none, none, none],
   rowEmpty, rowEmpty, rowEmpty, rowEmpty, rowEmpty, rowEmpty]

/-- Snapshot with the white pawn on e7 able to promote on e8. -/
def snapPromo : Snap Nat := ⟨0, "w", [("e7", ["e8"])], boardPawnE7⟩

/-- An LLM collaborator stream that always suggests the unparsable `zzz`. -/
def llmZzz : Nat → Option String := fun _ => some "zzz"

/-- An LLM collaborator stream whose first request already fails
(the collaborator throws). -/
def llmDown : Nat → Option String := fun _ => none

/-! ## Helper lemmas -/

theorem dropWhile_eq_self_of_all_false {p : Char → Bool} {l : List Char}
    (h : ∀ c ∈ l, p c = false) : l.dropWhile p = l := by
  cases l with
  | nil => rfl
  | cons c cs =>
    rw [List.dropWhile_cons]
    simp [h c (List.mem_cons_self c cs)]

theorem trimL_eq_self_of_noWS {l : List Char}
    (h : ∀ c ∈ l, isWS c = false) : trimL l = l := by
  unfold trimL
  rw [dropWhile_eq_self_of_all_false h,
      dropWhile_eq_self_of_all_false (by intro c hc; exact h c (List.mem_reverse.mp hc)),
      List.reverse_reverse]

theorem dropLastDot_eq_self {l : List Char} (h : l.getLast? ≠ some '.') :
    dropLastDot l = l := by
  unfold dropLastDot
  cases hr : l.reverse with
  | nil => rfl
  | cons c rest =>
    have hc : c ≠ '.' := by
      intro hcEq
      exact h (by rw [← List.head?_reverse, hr, hcEq]; rfl)
    simp [hc]

theorem dropTrailingBangs_eq_self {l : List Char}
    (h : ∀ c, l.getLast? = some c → (c = '!' || c = '?') = false) :
    dropTrailingBangs l = l := by
  unfold dropTrailingBangs
  cases hr : l.reverse with
  | nil =>
    have hl : l = [] := by rw [← List.reverse_reverse l, hr]; rfl
    simp [hl]
  | cons c rest =>
    rw [List.dropWhile_cons]
    have : (decide (c = '!') || decide (c = '?')) = false := by
      apply h
      rw [← List.head?_reverse, hr]; rfl
    rw [this]
    simp only [Bool.false_eq_true, if_false]
    rw [← hr, List.reverse_reverse]

theorem cutAtWS_eq_self_of_noWS {l : List Char}
    (h : ∀ c ∈ l, isWS c = false) : cutAtWS l = l := by
  induction l with
  | nil => rfl
  | cons c cs ih =>
    unfold cutAtWS
    rw [h c (List.mem_cons_self c cs)]
    simp only [Bool.false_and, Bool.false_eq_true, if_false]
    rw [ih (fun d hd => h d (List.mem_cons_of_mem c hd))]

/-- A token is in normal form when it contains no whitespace and does not end
in `.`, `!` or `?`: exactly the tokens each step of the cleaning chain leaves
unchanged. -/
def normalFixed (s : String) : Bool :=
  s.data.all (fun c => !isWS c) &&
    (match s.data.getLast? with
     | some c => !(c = '.' || c = '!' || c = '?')
     | none => true)

theorem normalize_eq_self_of_fixed {t : String} (h : normalFixed t = true) :
    normalize t = t := by
  unfold normalFixed at h
  rw [Bool.and_eq_true] at h
  obtain ⟨hws, hlast⟩ := h
  rw [List.all_eq_true] at hws
  have hws' : ∀ c ∈ t.data, isWS c = false := by
    intro c hc
    have := hws c hc
    simpa using this
  have hlast' : ∀ c, t.data.getLast? = some c →
      (c = '.' ∨ c = '!' ∨ c = '?') → False := by
    intro c hc hor
    rw [hc] at hlast
    rcases hor with h1 | h1 | h1 <;> simp [h1] at hlast
  unfold normalize
  rw [trimL_eq_self_of_noWS hws']
  rw [dropLastDot_eq_self (by
    intro hdot
    exact hlast' '.' hdot (Or.inl rfl))]
  rw [dropTrailingBangs_eq_self (by
    intro c hc
    by_contra hne
    rw [Bool.not_eq_false, Bool.or_eq_true, decide_eq_true_eq, decide_eq_true_eq] at hne
    exact hlast' c hc (Or.inr hne))]
  rw [cutAtWS_eq_self_of_noWS hws']

/-- C8, counterexample. Normalization is not idempotent: only a single
trailing period is stripped per pass, so `"e4.."` normalizes to `"e4."`,
which normalizes again to `"e4"`. -/
theorem c8_normalize_not_idempotent :
    normalize (normalize "e4..") ≠ normalize "e4.." := by decide

/-- C8 (amended): normalization is idempotent on every input whose normalized
form is whitespace-free and does not end in `.`, `!` or `?`; in general a
second pass can strip further trailing punctuation, since each pass removes
only one trailing period. -/
theorem c8_normalize_idempotent_on_fixed (s : String)
    (h : normalFixed (normalize s) = true) :
    normalize (normalize s) = normalize s :=
  normalize_eq_self_of_fixed h

/-- C8 amended, witness at `"Nf3 is strong"`. -/
theorem c8_normalize_idempotent_witness :
    normalFixed (normalize "Nf3 is strong") = true ∧
      normalize (normalize "Nf3 is strong") = normalize "Nf3 is strong" :=
  ⟨by decide, c8_normalize_idempotent_on_fixed "Nf3 is strong" (by decide)⟩

/-- The direct-coordinate early return of the route. -/
theorem routeResolve_coord {cands : List MoveInfo} {turn s fsq tsq : String}
    (h : coordSearch (jsTrim s).data = some (fsq, tsq)) :
    routeResolve cands turn s = .ok ⟨fsq, tsq, none⟩ := by
  unfold routeResolve
  simp only []
  rw [h]

/-- C9. Any input containing two consecutive square tokens resolves, for every
candidate list and side to move alike, to the first such pair — before any
SAN matching and independently of the legal-move map, so the returned pair
need not be legal. -/
theorem c9_direct_coordinate (cands : List MoveInfo) (turn s fsq tsq : String)
    (h : coordSearch (jsTrim s).data = some (fsq, tsq)) :
    routeResolve cands turn s = .ok ⟨fsq, tsq, none⟩ :=
  routeResolve_coord h

/-- C9, witness: `"h1h8"` resolves to (h1, h8) even against an empty
candidate list. -/
theorem c9_direct_coordinate_witness :
    coordSearch (jsTrim "h1h8").data = some ("h1", "h8") ∧
      routeResolve [] "w" "h1h8" = .ok ⟨"h1", "h8", none⟩ :=
  ⟨by decide, c9_direct_coordinate [] "w" "h1h8" "h1" "h8" (by decide)⟩

/-! ## Enumeration lemmas -/

theorem enumTos_game_eq {Pos : Type} (O : RulesOracle Pos)
    (board : List (List (Option CPiece))) (f : String) :
    ∀ (tos : List String) (g : Game Pos) (acc : List MoveInfo),
      (enumTos O board f tos g acc).2 = g := by
  intro tos
  induction tos with
  | nil => intro g acc; rfl
  | cons t rest ih =>
    intro g acc
    unfold enumTos
    cases h : O.step g.pos f t none with
    | none => simp [gmMakeMove, h, ih]
    | some pr => simp [gmMakeMove, gmUndoMove, h, ih]

theorem enumTos_mem {Pos : Type} (O : RulesOracle Pos)
    (board : List (List (Option CPiece))) (f : String) :
    ∀ (tos : List String) (g : Game Pos) (acc : List MoveInfo)
      (mi : MoveInfo), mi ∈ (enumTos O board f tos g acc).1 →
      mi ∈ acc ∨ ∃ p2 san, O.step g.pos mi.fromSq mi.toSq none = some (p2, san) := by
  intro tos
  induction tos with
  | nil => intro g acc mi hmi; exact Or.inl hmi
  | cons t rest ih =>
    intro g acc mi hmi
    unfold enumTos at hmi
    cases h : O.step g.pos f t none with
    | none =>
      simp only [gmMakeMove, h] at hmi
      exact ih g acc mi hmi
    | some pr =>
      obtain ⟨p2, san⟩ := pr
      simp only [gmMakeMove, gmUndoMove, h, if_true] at hmi
      have hrec := ih _ (acc ++ [⟨f, t, san, boardPieceType board f, none⟩]) mi hmi
      rcases hrec with hacc | hstep
      · rcases List.mem_append.mp hacc with h1 | h1
        · exact Or.inl h1
        · rcases List.mem_singleton.mp h1 with rfl
          exact Or.inr ⟨p2, san, h⟩
      · exact Or.inr hstep

theorem enumAll_game_eq {Pos : Type} (O : RulesOracle Pos)
    (board : List (List (Option CPiece))) :
    ∀ (vm : List (String × List String)) (g : Game Pos) (acc : List MoveInfo),
      (enumAll O board vm g acc).2 = g := by
  intro vm
  induction vm with
  | nil => intro g acc; rfl
  | cons e rest ih =>
    intro g acc
    obtain ⟨f, tos⟩ := e
    unfold enumAll
    simp only []
    rw [enumTos_game_eq O board f tos g acc]
    exact ih g _

theorem enumAll_mem {Pos : Type} (O : RulesOracle Pos)
    (board : List (List (Option CPiece))) :
    ∀ (vm : List (String × List String)) (g : Game Pos) (acc : List MoveInfo)
      (mi : MoveInfo), mi ∈ (enumAll O board vm g acc).1 →
      mi ∈ acc ∨ ∃ p2 san, O.step g.pos mi.fromSq mi.toSq none = some (p2, san) := by
  intro vm
  induction vm with
  | nil => intro g acc mi hmi; exact Or.inl hmi
  | cons e rest ih =>
    intro g acc mi hmi
    obtain ⟨f, tos⟩ := e
    unfold enumAll at hmi
    simp only [] at hmi
    rw [enumTos_game_eq O board f tos g acc] at hmi
    rcases ih g _ mi hmi with hacc | hstep
    · exact enumTos_mem O board f tos g acc mi hacc
    · exact Or.inr hstep

/-- C3. Speculatively applying a legal move through the game wrapper and then
undoing it restores the game exactly, hence the same legal-move map, side to
move and check status; and the enumeration loop, which does this for every
`(from, to)` pair of the legal-move map in order, leaves the game it threads
equal to the initial one. -/
theorem c3_apply_undo_roundtrip {Pos : Type} (O : RulesOracle Pos)
    (g : Game Pos) (f t : String) (p2 : Pos) (san : String)
    (h : O.step g.pos f t none = some (p2, san)) :
    ((gmMakeMove O g f t none).1 = true ∧
      (gmUndoMove (gmMakeMove O g f t none).2).2 = g ∧
      O.legal ((gmUndoMove (gmMakeMove O g f t none).2).2).pos = O.legal g.pos ∧
      O.turnOf ((gmUndoMove (gmMakeMove O g f t none).2).2).pos = O.turnOf g.pos ∧
      O.check ((gmUndoMove (gmMakeMove O g f t none).2).2).pos = O.check g.pos) ∧
    ∀ (board : List (List (Option CPiece))) (vm : List (String × List String)),
      (enumAll O board vm g []).2 = g := by
  have hg : (gmUndoMove (gmMakeMove O g f t none).2).2 = g := by
    simp [gmMakeMove, gmUndoMove, h]
  exact ⟨⟨by simp [gmMakeMove, h], hg, by rw [hg], by rw [hg], by rw [hg]⟩,
    fun board vm => enumAll_game_eq O board vm g []⟩

/-- C3, witness: the e2–e4 oracle at position 0; apply then undo restores the
empty-history game and the legal-move map observation. -/
theorem c3_apply_undo_roundtrip_witness :
    (gmUndoMove (gmMakeMove oE4 ⟨0, []⟩ "e2" "e4" none).2).2 = (⟨0, []⟩ : Game Nat) ∧
      oE4.legal ((gmUndoMove (gmMakeMove oE4 ⟨0, []⟩ "e2" "e4" none).2).2).pos =
        oE4.legal (Game.pos ⟨0, []⟩) ∧
      (enumAll oE4 [] (oE4.legal 0) ⟨0, []⟩ []).2 = (⟨0, []⟩ : Game Nat) :=
  ⟨(c3_apply_undo_roundtrip oE4 ⟨0, []⟩ "e2" "e4" 1 "e4" (by decide)).1.2.1,
   (c3_apply_undo_roundtrip oE4 ⟨0, []⟩ "e2" "e4" 1 "e4" (by decide)).1.2.2.1,
   (c3_apply_undo_roundtrip oE4 ⟨0, []⟩ "e2" "e4" 1 "e4" (by decide)).2 [] (oE4.legal 0)⟩

/-- C1. `tryHandleCaptureNotation` violates the rollback invariant: when the
oracle rejects a candidate reaching the capture destination (the legal-move
map lists the promotion capture g7→h8 but `applyMove` without a promotion
piece is rejected), the unguarded `game.undoMove()` pops the previous real
move, so the failed attempt returns with the history emptied and the position
rewound — the session state is mutated by a failed resolution attempt. -/
theorem c1_capture_fallback_mutates_on_failure :
    tryHandleCaptureNotn oReject "gxh8" snapCap gCap = (false, ⟨1, []⟩) ∧
      ((⟨1, []⟩ : Game Nat) ≠ gCap) :=
  ⟨by decide, by decide⟩

/-- C2, counterexample. With an LLM collaborator that keeps replying `zzz`,
a `makeAIMove` run observed for three pipeline rounds consumes three
regenerated suggestions without ever reaching the terminal failure handler —
there is no attempt counter, so the retry bound of 1 claimed by the spec does
not exist. -/
theorem c2_retry_not_bounded_by_one :
    (makeAIMove oReject llmZzz snapEmpty 3 0 "zzz" ⟨0, []⟩).regens = 3 ∧
      (makeAIMove oReject llmZzz snapEmpty 3 0 "zzz" ⟨0, []⟩).failed = false := by
  decide

/-- C2 (amended): `makeAIMove` has no attempt counter — every failed attempt
requests one more regenerated suggestion and restarts the pipeline, so with
persistently unparsable suggestions the number of regeneration requests grows
with the observation window (`fuel`) without ever reaching terminal failure:
the retry chain is unbounded, terminated only by a suggestion resolving or the
collaborator itself throwing. -/
theorem c2_retry_unbounded : ∀ (n k : Nat),
    (makeAIMove oReject llmZzz snapEmpty n k "zzz" ⟨0, []⟩).regens = n ∧
      (makeAIMove oReject llmZzz snapEmpty n k "zzz" ⟨0, []⟩).failed = false := by
  intro n
  induction n with
  | zero => intro k; exact ⟨rfl, rfl⟩
  | succ m ih =>
    intro k
    have e1 : tryHandleCommonNotns oReject "zzz" snapEmpty ⟨0, []⟩ =
        (false, ⟨0, []⟩) := by decide
    have e2 : parseMoveRoute oReject snapEmpty (normalize "zzz") =
        .error "Could not parse move: zzz" := by rfl
    have e3 : tryHandleCaptureNotn oReject "zzz" snapEmpty ⟨0, []⟩ =
        (false, ⟨0, []⟩) := by decide
    have e4 : extractMoveNotn "zzz" = "zzz" := by decide
    obtain ⟨ih1, ih2⟩ := ih (k + 1)
    unfold makeAIMove
    simp only [e1, e2, e3, e4, llmZzz]
    exact ⟨by simp [ih1], by simp [ih2]⟩

/-- When no candidate SAN-matches the token, the `find` step yields nothing. -/
theorem find?_sanMatches_none {cands : List MoveInfo} {t : String}
    (h : ∀ mi ∈ cands, sanMatches t mi = false) :
    cands.find? (fun m => sanMatches t m) = none :=
  List.find?_eq_none.mpr (fun x hx => by simp [h x hx])

/-- Route behaviour on a castling token that SAN-matches no candidate: the
fixed king squares for the side to move are returned unconditionally. -/
theorem routeMatch_castle {cands : List MoveInfo} {turn t : String}
    (hfind : ∀ mi ∈ cands, sanMatches t mi = false)
    (hpd : pieceDestOf t = none) (hcf : castleFullTest t = true) :
    routeMatchCands cands turn t =
      .ok ⟨castleFromSq turn, castleToSq turn (castleKingTest t), none⟩ := by
  unfold routeMatchCands routeAfterPieceDest
  rw [find?_sanMatches_none hfind, hpd, hcf]
  simp

/-- Case 1 of `tryHandleCommonNotations` on a castling token reduces to one
`gmMakeMove` attempt at the fixed king squares, committed on success and
reporting `false` with the game untouched on failure. -/
theorem tryCommon_castle {Pos : Type} (O : RulesOracle Pos) (snap : Snap Pos)
    (g : Game Pos) (t : String) (hclean : cleanCommon t = t)
    (hfull : castleFullTest t = true) :
    tryHandleCommonNotns O t snap g =
      (let r := gmMakeMove O g (castleFromSq snap.turn)
        (castleToSq snap.turn (castleKingTest t)) none
       if r.1 then (true, r.2) else (false, g)) := by
  unfold tryHandleCommonNotns
  simp only []
  rw [hclean, hfull]
  simp

/-- A castling token that the oracle rejects falls all the way through the
pipeline: Case 1 fails cleanly, the route still resolves the fixed squares
but their application is rejected, the capture fallback does not apply, and
the retry request to a failing collaborator terminates the attempt with the
game unchanged. -/
theorem makeAIMove_castle_fail {Pos : Type} (O : RulesOracle Pos)
    (snap : Snap Pos) (g : Game Pos) (t : String) (llm : Nat → Option String)
    (hclean : cleanCommon t = t) (hfull : castleFullTest t = true)
    (hnorm : normalize t = t) (htrim : jsTrim t = t)
    (hcoord : coordSearch t.data = none) (hext : extSearch t.data = none)
    (hpd : pieceDestOf t = none) (hx : containsS t "x" = false)
    (hstep : O.step g.pos (castleFromSq snap.turn)
      (castleToSq snap.turn (castleKingTest t)) none = none)
    (hllm : llm 0 = none)
    (hno : ∀ mi ∈ (enumAll O snap.board snap.validMoves ⟨snap.pos, []⟩ []).1,
      sanMatches t mi = false) :
    makeAIMove O llm snap 1 0 t g = ⟨g, false, 0, true, false⟩ := by
  have happly : gmMakeMove O g (castleFromSq snap.turn)
      (castleToSq snap.turn (castleKingTest t)) none = (false, g) := by
    simp [gmMakeMove, hstep]
  have hc : tryHandleCommonNotns O t snap g = (false, g) := by
    rw [tryCommon_castle O snap g t hclean hfull]
    simp only []
    rw [happly]
    rfl
  have hroute : parseMoveRoute O snap (normalize t) =
      .ok ⟨castleFromSq snap.turn, castleToSq snap.turn (castleKingTest t), none⟩ := by
    rw [hnorm]
    unfold parseMoveRoute routeResolve
    simp only []
    rw [htrim, hcoord, hext]
    exact routeMatch_castle hno hpd hfull
  have hcap : tryHandleCaptureNotn O t snap g = (false, g) := by
    unfold tryHandleCaptureNotn
    rw [hx]
    rfl
  show makeAIMove O llm snap (0 + 1) 0 t g = _
  unfold makeAIMove
  simp only [hc, hroute, happly, hcap, hllm]
  rfl

/-- C5. For every castling token among `O-O`, `O-O-O`, `0-0`, `0-0-0`,
resolution targets exactly the fixed king squares for the side to move:
if the oracle accepts the fixed move, Case 1 of the common-notation handler
applies precisely that move; if the oracle rejects it, the handler returns
`false` with the game unchanged, and a full `makeAIMove` attempt (when no
candidate SAN-matches the token and the retry collaborator fails) terminates
with the game session state untouched and no move applied. -/
theorem c5_castling_fixed_squares {Pos : Type} (O : RulesOracle Pos)
    (snap : Snap Pos) (g : Game Pos) (t : String)
    (ht : t = "O-O" ∨ t = "O-O-O" ∨ t = "0-0" ∨ t = "0-0-0") :
    (∀ p2 san,
      O.step g.pos (castleFromSq snap.turn)
          (castleToSq snap.turn (castleKingTest t)) none = some (p2, san) →
      tryHandleCommonNotns O t snap g =
        (true, ⟨p2, ⟨castleFromSq snap.turn,
          castleToSq snap.turn (castleKingTest t), san, g.pos⟩ :: g.hist⟩)) ∧
    (O.step g.pos (castleFromSq snap.turn)
        (castleToSq snap.turn (castleKingTest t)) none = none →
      tryHandleCommonNotns O t snap g = (false, g) ∧
      ∀ (llm : Nat → Option String), llm 0 = none →
        (∀ mi ∈ (enumAll O snap.board snap.validMoves ⟨snap.pos, []⟩ []).1,
          sanMatches t mi = false) →
        makeAIMove O llm snap 1 0 t g = ⟨g, false, 0, true, false⟩) := by
  have hclean : cleanCommon t = t := by
    rcases ht with rfl | rfl | rfl | rfl <;> decide
  have hfull : castleFullTest t = true := by
    rcases ht with rfl | rfl | rfl | rfl <;> decide
  constructor
  · intro p2 san hstep
    rw [tryCommon_castle O snap g t hclean hfull]
    simp only []
    rw [show gmMakeMove O g (castleFromSq snap.turn)
        (castleToSq snap.turn (castleKingTest t)) none =
        (true, ⟨p2, ⟨castleFromSq snap.turn,
          castleToSq snap.turn (castleKingTest t), san, g.pos⟩ :: g.hist⟩) by
      simp [gmMakeMove, hstep]]
    rfl
  · intro hstep
    refine ⟨?_, ?_⟩
    · rw [tryCommon_castle O snap g t hclean hfull]
      simp only []
      rw [show gmMakeMove O g (castleFromSq snap.turn)
          (castleToSq snap.turn (castleKingTest t)) none = (false, g) by
        simp [gmMakeMove, hstep]]
      rfl
    · intro llm hllm hno
      refine makeAIMove_castle_fail O snap g t llm hclean hfull ?_ ?_ ?_ ?_ ?_ ?_
        hstep hllm hno
      all_goals rcases ht with rfl | rfl | rfl | rfl <;> decide

/-- C5, witness: the castling oracle accepts e1–g1 and `O-O` applies exactly
that; the rejecting oracle leaves the handler at `(false, unchanged)` and a
full attempt against a failed collaborator ends with the game untouched. -/
theorem c5_castling_fixed_squares_witness :
    tryHandleCommonNotns oCastle "O-O" ⟨0, "w", [("e1", ["g1"])], []⟩ ⟨0, []⟩ =
      (true, ⟨1, [⟨"e1", "g1", "O-O", 0⟩]⟩) ∧
    tryHandleCommonNotns oReject "O-O" snapEmpty ⟨0, []⟩ = (false, ⟨0, []⟩) ∧
    makeAIMove oReject llmDown snapEmpty 1 0 "O-O" ⟨0, []⟩ =
      ⟨⟨0, []⟩, false, 0, true, false⟩ := by
  have hsucc := (c5_castling_fixed_squares oCastle ⟨0, "w", [("e1", ["g1"])], []⟩
    ⟨0, []⟩ "O-O" (Or.inl rfl)).1 1 "O-O" (by decide)
  have hfail := (c5_castling_fixed_squares oReject snapEmpty ⟨0, []⟩ "O-O"
    (Or.inl rfl)).2 (by decide)
  exact ⟨hsucc, hfail.1,
    hfail.2 llmDown rfl (by intro mi hmi; simp [enumAll] at hmi)⟩

/-- C4, counterexample. The token `bxc3` is exactly the oracle SAN of the
pawn capture b2→c3, yet with the bishop capture d4→c3 (SAN `Bxc3`) earlier in
enumeration order, the matcher's case-insensitive rule fires on the bishop
candidate first and resolution returns the bishop's squares, not the pawn's. -/
theorem c4_exact_san_hijacked :
    routeResolve [⟨"d4", "c3", "Bxc3", "b", none⟩, ⟨"b2", "c3", "bxc3", "p", none⟩]
        "w" "bxc3" = .ok ⟨"d4", "c3", none⟩ ∧
    (⟨"b2", "c3", "bxc3", "p", none⟩ : MoveInfo) ∈
      [(⟨"d4", "c3", "Bxc3", "b", none⟩ : MoveInfo), ⟨"b2", "c3", "bxc3", "p", none⟩] ∧
    ("d4" ≠ "b2") :=
  ⟨rfl, by decide, by decide⟩

/-- A candidate exactly matches its own SAN (the first matching rule). -/
theorem sanMatches_self (m : MoveInfo) : sanMatches m.san m = true := by
  unfold sanMatches
  simp

theorem find?_pre_append {p : MoveInfo → Bool} {pre post : List MoveInfo}
    {m : MoveInfo} (hpre : ∀ c ∈ pre, p c = false) (hm : p m = true) :
    (pre ++ m :: post).find? p = some m := by
  induction pre with
  | nil => simp [List.find?_cons, hm]
  | cons c cs ih =>
    rw [List.cons_append, List.find?_cons]
    rw [hpre c (List.mem_cons_self c cs)]
    exact ih (fun d hd => hpre d (List.mem_cons_of_mem c hd))

/-- C4 (amended): the matcher returns the first candidate in enumeration
order satisfying the ordered per-candidate rules; when the token is exactly
the SAN of candidate `m`, no earlier candidate matches (in particular not
case-insensitively, as a differently-cased SAN such as `Bxc3` vs `bxc3`
would), the token triggers no coordinate format and carries no `=`, then the
matcher resolves the token to exactly `m`'s squares. Promotion-move SANs are
excluded implicitly: they never appear among candidates (see the enumeration
invariant). -/
theorem c4_exact_san_resolves_first_unhijacked (pre post : List MoveInfo)
    (m : MoveInfo) (turn : String)
    (hpre : ∀ c ∈ pre, sanMatches m.san c = false)
    (htrim : jsTrim m.san = m.san)
    (hcoord : coordSearch m.san.data = none)
    (hext : extSearch m.san.data = none)
    (heq : containsS m.san "=" = false) :
    routeResolve (pre ++ m :: post) turn m.san = .ok ⟨m.fromSq, m.toSq, none⟩ := by
  unfold routeResolve
  simp only []
  rw [htrim, hcoord, hext]
  unfold routeMatchCands
  rw [find?_pre_append hpre (sanMatches_self m)]
  have hpromo : promoOf m.san = none := by
    unfold promoOf
    rw [heq]
    rfl
  rw [hpromo]

/-- C4 amended, witness: token `Nf3` with the knight candidate first. -/
theorem c4_exact_san_resolves_witness :
    routeResolve [⟨"g1", "f3", "Nf3", "n", none⟩] "w" "Nf3" =
      .ok ⟨"g1", "f3", none⟩ :=
  c4_exact_san_resolves_first_unhijacked [] [] ⟨"g1", "f3", "Nf3", "n", none⟩ "w"
    (by intro c hc; exact absurd hc (List.not_mem_nil c))
    (by decide) (by decide) (by decide) (by decide)

/-! ## Character class facts -/

theorem isWS_eq_false_of_one_le {c : Char} (h : ('1' : Char) ≤ c) :
    isWS c = false := by
  unfold isWS
  simp only [Bool.or_eq_false_iff, decide_eq_false_iff_not]
  refine ⟨⟨⟨⟨⟨?_, ?_⟩, ?_⟩, ?_⟩, ?_⟩, ?_⟩ <;>
    (intro heq; subst heq; revert h; decide)

theorem one_le_of_isFileChar {c : Char} (h : isFileChar c = true) :
    ('1' : Char) ≤ c := by
  unfold isFileChar at h
  rw [Bool.and_eq_true] at h
  exact le_trans (by decide) (of_decide_eq_true h.1)

theorem one_le_of_isRankChar {c : Char} (h : isRankChar c = true) :
    ('1' : Char) ≤ c := by
  unfold isRankChar at h
  rw [Bool.and_eq_true] at h
  exact of_decide_eq_true h.1

theorem isPieceUC_cases {c : Char} (h : isPieceUC c = true) :
    c = 'N' ∨ c = 'B' ∨ c = 'R' ∨ c = 'Q' ∨ c = 'K' := by
  unfold isPieceUC at h
  simp only [Bool.or_eq_true, decide_eq_true_eq] at h
  tauto

theorem isWS_eq_false_of_isPieceUC {c : Char} (h : isPieceUC c = true) :
    isWS c = false := by
  rcases isPieceUC_cases h with rfl | rfl | rfl | rfl | rfl <;> decide

theorem isFileChar_eq_false_of_isPieceUC {c : Char} (h : isPieceUC c = true) :
    isFileChar c = false := by
  rcases isPieceUC_cases h with rfl | rfl | rfl | rfl | rfl <;> decide

theorem castleFullTest_eq_false_of_len4 {t : String}
    (hdata : t.data.length = 4) : castleFullTest t = false := by
  unfold castleFullTest
  simp only [Bool.or_eq_false_iff, decide_eq_false_iff_not]
  refine ⟨⟨⟨?_, ?_⟩, ?_⟩, ?_⟩ <;>
    (intro heq
     have hl := congrArg (fun s => s.data.length) heq
     simp [lowerS, hdata] at hl)

/-- C7, counterexample. For the disambiguated token `Nbd5` with two knight
candidates reaching d5 (rank-disambiguated SANs `N6d5` and `N4d5`), the
piece+destination step — in the claim's sense — yields two candidates and the
file disambiguator `b` leaves both, so the claim predicts the first candidate
is returned; the route instead answers with the parse error: the
disambiguation filter sits behind the three-character guard regex
`^[NBRQK][a-h][1-8]$`, which no four-character token matches. -/
theorem c7_disambiguation_unreachable :
    routeResolve [⟨"b6", "d5", "N6d5", "n", none⟩, ⟨"b4", "d5", "N4d5", "n", none⟩]
        "w" "Nbd5" = .error "Could not parse move: Nbd5" ∧
    (List.filter (fun m => hasLead m.san.data ['N'] && m.toSq = "d5")
      [(⟨"b6", "d5", "N6d5", "n", none⟩ : MoveInfo),
        ⟨"b4", "d5", "N4d5", "n", none⟩]).length = 2 ∧
    disambOf "Nbd5" = some 'b' :=
  ⟨rfl, by decide, by decide⟩

/-- C7 (amended): the origin-square disambiguation filter and the
pick-first-ambiguous branch are unreachable for disambiguated tokens: a token
of shape `[NBRQK][a-h1-8][a-h][1-8]` never satisfies the guarding
three-character regex, so the piece+destination block is skipped entirely; the
route resolves such a token only through plain SAN matching, and when no
candidate SAN-matches it the route fails with the parse error rather than
filtering or picking a first candidate. -/
theorem c7_disambiguated_tokens_error (cands : List MoveInfo) (turn t : String)
    (p d f r : Char) (hdata : t.data = [p, d, f, r])
    (hp : isPieceUC p = true) (hd : (isFileChar d || isRankChar d) = true)
    (hf : isFileChar f = true) (hr : isRankChar r = true)
    (hno : ∀ c ∈ cands, sanMatches t c = false) :
    pieceDestOf t = none ∧
    routeResolve cands turn t = .error ("Could not parse move: " ++ t) := by
  have hnows : ∀ c ∈ t.data, isWS c = false := by
    rw [hdata]
    intro c hc
    simp only [List.mem_cons, List.not_mem_nil, or_false] at hc
    rcases hc with rfl | rfl | rfl | rfl
    · exact isWS_eq_false_of_isPieceUC hp
    · rcases Bool.or_eq_true_iff.mp hd with h1 | h1
      · exact isWS_eq_false_of_one_le (one_le_of_isFileChar h1)
      · exact isWS_eq_false_of_one_le (one_le_of_isRankChar h1)
    · exact isWS_eq_false_of_one_le (one_le_of_isFileChar hf)
    · exact isWS_eq_false_of_one_le (one_le_of_isRankChar hr)
  have htrim : jsTrim t = t := by
    show (⟨trimL t.data⟩ : String) = t
    rw [trimL_eq_self_of_noWS hnows]
  have hfp : isFileChar p = false := isFileChar_eq_false_of_isPieceUC hp
  have hcoord : coordSearch t.data = none := by
    rw [hdata]
    unfold coordSearch
    rw [hfp]
    rfl
  have hext : extSearch t.data = none := by
    rw [hdata]
    unfold extSearch
    simp [sqDashSq, extSearch, ite_self]
  have hpd : pieceDestOf t = none := by
    unfold pieceDestOf
    rw [hdata]
  have hcastle : castleFullTest t = false :=
    castleFullTest_eq_false_of_len4 (by rw [hdata]; rfl)
  have hbare : bareSquareOf t = none := by
    unfold bareSquareOf
    rw [hdata]
  refine ⟨hpd, ?_⟩
  unfold routeResolve
  simp only []
  rw [htrim, hcoord, hext]
  unfold routeMatchCands
  rw [find?_sanMatches_none hno, hpd]
  unfold routeAfterPieceDest
  rw [hcastle]
  simp only [Bool.false_eq_true, if_false]
  rw [hbare]

/-- C7 amended, witness at token `Nbd5` with an empty candidate list. -/
theorem c7_disambiguated_tokens_error_witness :
    pieceDestOf "Nbd5" = none ∧
      routeResolve [] "w" "Nbd5" = .error "Could not parse move: Nbd5" :=
  c7_disambiguated_tokens_error [] "w" "Nbd5" 'N' 'b' 'd' '5' rfl
    (by decide) (by decide) (by decide) (by decide)
    (by intro c hc; exact absurd hc (List.not_mem_nil c))

/-! ## Promotion-token facts -/

theorem le_toNat {a b : Char} (h : a ≤ b) : a.toNat ≤ b.toNat := h

theorem toNat_lowerC_upper {x : Char} (h1 : ('A' ≤ x && x ≤ 'Z') = true) :
    (lowerC x).toNat = x.toNat + 32 := by
  unfold lowerC
  rw [if_pos h1]
  rw [Bool.and_eq_true, decide_eq_true_eq, decide_eq_true_eq] at h1
  have h2 : x.toNat ≤ 90 := le_toNat h1.2
  have hval : (x.toNat + 32).isValidChar := Or.inl (by omega)
  rw [Char.ofNat, dif_pos hval]
  simp [Char.ofNatAux, Char.toNat, UInt32.toNat]

/-- ASCII lower-casing creates no `=` sign. -/
theorem lowerC_eq_eq {x : Char} (h : lowerC x = '=') : x = '=' := by
  by_cases hc : ('A' ≤ x && x ≤ 'Z') = true
  · exfalso
    have ht := congrArg Char.toNat h
    rw [toNat_lowerC_upper hc] at ht
    rw [Bool.and_eq_true, decide_eq_true_eq, decide_eq_true_eq] at hc
    have h3 : (65 : Nat) ≤ x.toNat := le_toNat hc.1
    have h4 : ('=' : Char).toNat = 61 := by decide
    omega
  · unfold lowerC at h
    rw [if_neg hc] at h
    exact h

theorem hasSub_singleton_of_mem {l : List Char} {c : Char} (h : c ∈ l) :
    hasSub l [c] = true := by
  induction l with
  | nil => cases h
  | cons x xs ih =>
    unfold hasSub
    rcases List.mem_cons.mp h with rfl | h2
    · rw [show hasLead (c :: xs) [c] = true by simp [hasLead]]
      rfl
    · by_cases hl : hasLead (x :: xs) [c] = true
      · simp [hl]
      · simp [hl, ih h2]

theorem mem_of_mem_stripCheckL {l : List Char} {c : Char}
    (h : c ∈ stripCheckL l) : c ∈ l := by
  unfold stripCheckL at h
  split at h
  · next x xs hr =>
      split at h
      · have hx : c ∈ x :: xs := List.mem_cons_of_mem x (List.mem_reverse.mp h)
        rw [← hr] at hx
        exact List.mem_reverse.mp hx
      · exact h
  · exact h

/-- A candidate whose SAN contains no `=` fails every matching rule against
the promotion token `e8=Q`. -/
theorem sanMatches_promoTok_false {c : MoveInfo}
    (h : containsS c.san "=" = false) : sanMatches "e8=Q" c = false := by
  have hmem : ('=' : Char) ∉ c.san.data := by
    intro hm
    rw [show containsS c.san "=" = hasSub c.san.data ['='] from rfl,
      hasSub_singleton_of_mem hm] at h
    exact Bool.true_eq_false.mp h
  have h1 : ¬(c.san = "e8=Q") := by
    intro he
    exact hmem (by rw [he]; decide)
  have h2 : ¬(lowerS c.san = lowerS "e8=Q") := by
    intro he
    have hx : ('=' : Char) ∈ (lowerS c.san).data := by rw [he]; decide
    simp only [lowerS] at hx
    obtain ⟨x, hx1, hx2⟩ := List.mem_map.mp hx
    exact hmem (lowerC_eq_eq hx2 ▸ hx1)
  have h3 : ¬((⟨stripCheckL c.san.data⟩ : String) = "e8=Q") := by
    intro he
    have hd : stripCheckL c.san.data = ("e8=Q" : String).data :=
      congrArg String.data he
    have hx : ('=' : Char) ∈ stripCheckL c.san.data := by rw [hd]; decide
    exact hmem (mem_of_mem_stripCheckL hx)
  unfold sanMatches
  rw [if_neg h1, if_neg h2, if_neg h3,
    show pieceDestOf "e8=Q" = none from by decide]

/-- C10. The candidate enumeration invokes the oracle with no promotion
piece: any `(from, to)` pair whose promotion-less application the oracle
rejects — in particular every move requiring a promotion piece — yields no
Move Candidate; and against candidates whose SANs carry no `=` (as
promotion-free SANs never do), the route cannot resolve the promotion token
`e8=Q` by SAN matching and fails, leaving such tokens to the orchestrator's
promotion-suffix fallback. -/
theorem c10_no_promotion_candidates {Pos : Type} (O : RulesOracle Pos)
    (snap : Snap Pos) :
    (∀ (g : Game Pos) (fsq tsq : String),
      O.step g.pos fsq tsq none = none →
      ∀ mi ∈ (enumAll O snap.board snap.validMoves g []).1,
        ¬(mi.fromSq = fsq ∧ mi.toSq = tsq)) ∧
    (∀ (cands : List MoveInfo) (turn : String),
      (∀ c ∈ cands, containsS c.san "=" = false) →
      routeResolve cands turn "e8=Q" = .error "Could not parse move: e8=Q") := by
  constructor
  · intro g fsq tsq hstep mi hmi ⟨h1, h2⟩
    rcases enumAll_mem O snap.board snap.validMoves g [] mi hmi with hin | ⟨p2, san, hs⟩
    · exact absurd hin (List.not_mem_nil mi)
    · rw [h1, h2, hstep] at hs
      exact Option.noConfusion hs
  · intro cands turn hno
    have hfind : ∀ c ∈ cands, sanMatches "e8=Q" c = false :=
      fun c hc => sanMatches_promoTok_false (hno c hc)
    unfold routeResolve
    simp only []
    rw [show jsTrim "e8=Q" = "e8=Q" from rfl,
      show coordSearch ("e8=Q" : String).data = none from by decide,
      show extSearch ("e8=Q" : String).data = none from by decide]
    unfold routeMatchCands
    rw [find?_sanMatches_none hfind,
      show pieceDestOf "e8=Q" = none from by decide]
    unfold routeAfterPieceDest
    rw [show castleFullTest "e8=Q" = false from by decide]
    simp only [Bool.false_eq_true, if_false]
    rw [show bareSquareOf "e8=Q" = none from by decide]
    rfl

/-- C10, witness: the e2–e4 oracle never enumerates the rejected g7→h8 pair,
and a knight-SAN candidate list cannot resolve `e8=Q`. -/
theorem c10_no_promotion_candidates_witness :
    (¬((⟨"g7", "h8", "gxh8", "p", none⟩ : MoveInfo).fromSq = "g7" ∧
        (⟨"g7", "h8", "gxh8", "p", none⟩ : MoveInfo).toSq = "h8") ∨
      (⟨"g7", "h8", "gxh8", "p", none⟩ : MoveInfo) ∉
        (enumAll oE4 snapEmpty.board snapEmpty.validMoves ⟨0, []⟩ []).1) ∧
    routeResolve [⟨"g1", "f3", "Nf3", "n", none⟩] "w" "e8=Q" =
      .error "Could not parse move: e8=Q" := by
  constructor
  · by_cases hin : (⟨"g7", "h8", "gxh8", "p", none⟩ : MoveInfo) ∈
        (enumAll oE4 snapEmpty.board snapEmpty.validMoves ⟨0, []⟩ []).1
    · exact Or.inl ((c10_no_promotion_candidates oE4 snapEmpty).1 ⟨0, []⟩ "g7" "h8"
        (by decide) _ hin)
    · exact Or.inr hin
  · exact (c10_no_promotion_candidates oE4 snapEmpty).2
      [⟨"g1", "f3", "Nf3", "n", none⟩] "w" (by decide)

/-- C6, counterexample. The move e7→e8 is a white pawn reaching the last rank
(`isPawnPromotionMove` holds on the snapshot board), yet the pipeline's
Resolved Move for the token `e7e8` — produced by the direct-coordinate
format — carries no promotion component: promotion presence does not follow
from the move being a promotion, only from the token carrying `=`. -/
theorem c6_promotion_iff_violated :
    isPawnPromotionMove "e7" "e8" snapPromo = true ∧
      routeResolve [] "w" "e7e8" = .ok ⟨"e7", "e8", none⟩ :=
  ⟨by decide, rfl⟩

/-- C6 (amended): the caller-requested automatic default holds — the store's
`makeMove` fills in promotion `q` for a promotion-eligible move when the
caller passes none — but a pipeline Resolved Move carries a promotion
component only when the source token indicates one: in particular every
direct-coordinate resolution carries none, even for a pawn reaching the last
rank. -/
theorem c6_promotion_component {Pos : Type} (snap : Snap Pos)
    (fsq tsq : String) (h : isPawnPromotionMove fsq tsq snap = true) :
    storePromotion (some snap) fsq tsq none = some "q" ∧
    ∀ (cands : List MoveInfo) (turn s a b : String),
      coordSearch (jsTrim s).data = some (a, b) →
      routeResolve cands turn s = .ok ⟨a, b, none⟩ :=
  ⟨by simp [storePromotion, h], fun _ _ _ _ _ hc => routeResolve_coord hc⟩

/-- C6 amended, witness: the e7 pawn snapshot defaults to queen on the store
path, and `e7e8` resolves with no promotion component. -/
theorem c6_promotion_component_witness :
    storePromotion (some snapPromo) "e7" "e8" none = some "q" ∧
      routeResolve [] "w" "e7e8" = .ok ⟨"e7", "e8", none⟩ :=
  ⟨(c6_promotion_component snapPromo "e7" "e8" (by decide)).1,
   (c6_promotion_component snapPromo "e7" "e8" (by decide)).2 [] "w" "e7e8"
     "e7" "e8" (by decide)⟩

end Chess3D
